import Mathlib

/-
Verification of the fan-out/fan-in dispatcher of the `goroutines` package
(`fan_in_out_fetch`, `fanout_fetch`, `FanOutFanInWithContext`).

The Go code under study:

  func fan_in_out_fetch(ctx, url) (string, error):
      select { case <-time.After(delay): return "Data from " + url, nil
               case <-ctx.Done():        return "", ctx.Err() }

  func fanout_fetch(ctx, urls) <-chan string:
      out := make(chan string)
      go func() {
          defer close(out)
          resultCh := make(chan string)
          for _, url := range urls {                 // FAN-OUT
              go func(u) { data, err := fan_in_out_fetch(ctx, u)
                           if err != nil { print; return }   // nothing sent
                           resultCh <- data }(url)
          }
          for i := 0; i < len(urls); i++ {           // FAN-IN
              select { case <-ctx.Done():       print; return
                       case result := <-resultCh: out <- result }
          }
      }()
      return out

The embedding makes the two sources of nondeterminism explicit in a
`Schedule`: for each worker, which arm of its inner select fired
(`raceLost`), and the sequence of select choices taken by the fan-in loop
(`branches`), together with whether the context was ever cancelled
(`ctxCancelled`).  `fanout_fetch` returns the list of strings emitted on
`out` together with the number of times `close(out)` ran: the deferred
close runs once whenever the aggregator goroutine returns, and zero times
on the (unreachable under well-formed schedules) path where the loop
blocks forever.  `WellFormed` records exactly the scheduling facts Go
guarantees: a receive only ever takes a value a worker actually sent, each
unbuffered send is consumed at most once, the Done branch can only fire
after cancellation, a worker's fetch can only lose its race after
cancellation, and the loop never blocks with no ready branch.
-/

/-- The body of `fan_in_out_fetch`: a select between the delay timer and
`ctx.Done()`.  `ctxDoneFirst` says which arm fired; on the timer arm the
function returns `"Data from " ++ url`, on the Done arm it returns the
context's error. -/
def fan_in_out_fetch (ctxDoneFirst : Bool) (url : String) : Except String String :=
  if ctxDoneFirst then Except.error "context canceled"
  else Except.ok ("Data from " ++ url)

/-- What the worker goroutine spawned for `url` sends on `resultCh`:
the fetched data on success, and nothing at all on error (the Go worker
prints the error and returns without sending). -/
def workerSend (ctxDoneFirst : Bool) (url : String) : Option String :=
  match fan_in_out_fetch ctxDoneFirst url with
  | Except.ok data => some data
  | Except.error _ => none

/-- One resolution of the fan-in loop's select: either the `ctx.Done()`
branch fired, or the branch receiving from `resultCh` fired, taking the
value sent by the worker for item `i`. -/
inductive SelectBranch where
  | ctxDone : SelectBranch
  | recv : (i : Nat) → SelectBranch
deriving DecidableEq

/-- One concurrent execution of a dispatch: `raceLost i` says worker `i`'s
inner select took the `ctx.Done()` arm; `branches` is the sequence of
select resolutions of the fan-in loop; `ctxCancelled` says whether the
context was ever cancelled during the dispatch. -/
structure Schedule where
  raceLost : Nat → Bool
  branches : List SelectBranch
  ctxCancelled : Bool

/-- The fan-in loop of `fanout_fetch`, with `fuel` remaining iterations.
Returns the values forwarded to `out` and the number of times the deferred
`close(out)` ran.  Exhausting the fuel models the loop finishing all
`len(urls)` iterations; a `ctxDone` branch models the early `return`; both
run the deferred close once.  Running out of branches with fuel left
models the loop blocked forever on a select with no ready case, so the
close never runs (well-formed schedules exclude this).  On a `recv i`
branch the loop forwards whatever worker `i` sent; a worker whose fetch
errored sent nothing, so that case forwards nothing (also unreachable
under well-formed schedules). -/
def fanInLoop (urls : List String) (raceLost : Nat → Bool) :
    List SelectBranch → Nat → List String × Nat
  | _, 0 => ([], 1)
  | [], _ + 1 => ([], 0)
  | SelectBranch.ctxDone :: _, _ + 1 => ([], 1)
  | SelectBranch.recv i :: rest, k + 1 =>
    let p := fanInLoop urls raceLost rest k
    match workerSend (raceLost i) (urls.getD i "") with
    | some d => (d :: p.1, p.2)
    | none => (p.1, p.2)

/-- `fanout_fetch` under schedule `s`: the strings emitted on the `out`
channel, in order, paired with the number of times `close(out)` ran. -/
def fanout_fetch (urls : List String) (s : Schedule) : List String × Nat :=
  fanInLoop urls s.raceLost s.branches urls.length

/-- The item indices of the receive branches actually consumed by the
fan-in loop: the branches taken before the fuel ran out or a `ctxDone`
ended the loop. -/
def consumedRecv : List SelectBranch → Nat → List Nat
  | _, 0 => []
  | [], _ + 1 => []
  | SelectBranch.ctxDone :: _, _ + 1 => []
  | SelectBranch.recv i :: rest, k + 1 => i :: consumedRecv rest k

/-- The item indices of all receive branches in a schedule. -/
def recvIndices (branches : List SelectBranch) : List Nat :=
  branches.filterMap fun b =>
    match b with
    | SelectBranch.recv i => some i
    | SelectBranch.ctxDone => none

/-- The scheduling facts Go guarantees for a dispatch of `n` items:
each unbuffered send on `resultCh` is received at most once (`nodup`);
a receive only takes a value from one of the `n` workers (`recv_lt`) and
only from a worker that actually sent, i.e. whose fetch succeeded
(`recv_sent`); a worker's fetch loses its race only if the context was
cancelled (`race_needs_cancel`); the fan-in's Done branch fires only if the
context was cancelled (`done_needs_cancel`); and the loop never blocks with
no ready branch: either a Done branch ends it early or enough sends arrive
for all its iterations (`live`). -/
structure WellFormed (n : Nat) (s : Schedule) : Prop where
  nodup : (recvIndices s.branches).Nodup
  recv_lt : ∀ i ∈ recvIndices s.branches, i < n
  recv_sent : ∀ i ∈ recvIndices s.branches, s.raceLost i = false
  race_needs_cancel : ∀ i, s.raceLost i = true → s.ctxCancelled = true
  done_needs_cancel : SelectBranch.ctxDone ∈ s.branches → s.ctxCancelled = true
  live : SelectBranch.ctxDone ∈ s.branches ∨ n ≤ s.branches.length

/-- Worker `i` of a dispatch of `urls` eventually exits: either its fetch
errored (it prints and returns without sending), or its send on
`resultCh` was consumed by the fan-in loop.  A worker whose fetch
succeeded but whose send is never received blocks on `resultCh <- data`
forever. -/
def workerExits (urls : List String) (s : Schedule) (i : Nat) : Prop :=
  s.raceLost i = true ∨ i ∈ consumedRecv s.branches urls.length

/-- The cancellation state of a dispatch's context: `context.WithTimeout`
starts idle; the deadline firing or an explicit `cancel()` call moves it
to `activated`, which is terminal. -/
inductive CancelState where
  | idle : CancelState
  | activated : CancelState
deriving DecidableEq

/-- Triggering cancellation (deadline elapsed or explicit `cancel()`
call): from any state the context becomes activated. -/
def triggerCancel : CancelState → CancelState := fun _ => CancelState.activated

/-- Whether `ctx.Done()` is closed, as observed by workers and the fan-in
loop. -/
def doneObserved : CancelState → Bool
  | CancelState.idle => false
  | CancelState.activated => true

/- ------------------------------------------------------------------ -/
/- Shared helper lemmas                                               -/
/- ------------------------------------------------------------------ -/

theorem recvIndices_nil : recvIndices [] = [] := rfl

theorem recvIndices_cons_done (rest : List SelectBranch) :
    recvIndices (SelectBranch.ctxDone :: rest) = recvIndices rest := rfl

theorem recvIndices_cons_recv (i : Nat) (rest : List SelectBranch) :
    recvIndices (SelectBranch.recv i :: rest) = i :: recvIndices rest := rfl

/-- The receives the fan-in loop consumes are a sublist of all receive
branches of the schedule. -/
theorem consumedRecv_sublist (br : List SelectBranch) (k : Nat) :
    List.Sublist (consumedRecv br k) (recvIndices br) := by
  induction br generalizing k with
  | nil =>
    cases k <;> simp [consumedRecv, recvIndices_nil]
  | cons b rest ih =>
    cases k with
    | zero => simp [consumedRecv]
    | succ k =>
      cases b with
      | ctxDone => simp [consumedRecv]
      | recv i =>
        rw [recvIndices_cons_recv]
        exact List.Sublist.cons₂ i (ih k)

theorem consumedRecv_subset (br : List SelectBranch) (k : Nat) (i : Nat)
    (h : i ∈ consumedRecv br k) : i ∈ recvIndices br :=
  (consumedRecv_sublist br k).subset h

theorem consumedRecv_nodup (br : List SelectBranch) (k : Nat)
    (h : (recvIndices br).Nodup) : (consumedRecv br k).Nodup :=
  (consumedRecv_sublist br k).nodup h

/-- A worker whose fetch succeeded sends exactly the fetched data. -/
theorem workerSend_of_won (u : String) :
    workerSend false u = some ("Data from " ++ u) := rfl

/-- A worker whose fetch lost the race sends nothing. -/
theorem workerSend_of_lost (u : String) : workerSend true u = none := rfl

/-- When every consumed receive is from a worker whose fetch succeeded,
the values the fan-in loop forwards to `out` are exactly the fetched data
of the consumed items, in consumption order. -/
theorem fanInLoop_emitted (urls : List String) (raceLost : Nat → Bool)
    (br : List SelectBranch) (k : Nat)
    (hsent : ∀ i ∈ recvIndices br, raceLost i = false) :
    (fanInLoop urls raceLost br k).1 =
      (consumedRecv br k).map (fun i => "Data from " ++ urls.getD i "") := by
  induction br generalizing k with
  | nil => cases k <;> simp [fanInLoop, consumedRecv]
  | cons b rest ih =>
    cases k with
    | zero => simp [fanInLoop, consumedRecv]
    | succ k =>
      cases b with
      | ctxDone => simp [fanInLoop, consumedRecv]
      | recv i =>
        have hi : raceLost i = false := by
          apply hsent
          rw [recvIndices_cons_recv]
          exact List.mem_cons_self i _
        have hrest : ∀ j ∈ recvIndices rest, raceLost j = false := by
          intro j hj
          apply hsent
          rw [recvIndices_cons_recv]
          exact List.mem_cons_of_mem i hj
        simp only [fanInLoop, consumedRecv, hi, workerSend_of_won, List.map_cons]
        rw [ih k hrest]

/-- Regardless of what a consumed receive forwards, the close count of the
fan-in loop is unchanged by it. -/
theorem fanInLoop_close_cons_recv (urls : List String) (raceLost : Nat → Bool)
    (i : Nat) (rest : List SelectBranch) (k : Nat) :
    (fanInLoop urls raceLost (SelectBranch.recv i :: rest) (k + 1)).2 =
      (fanInLoop urls raceLost rest k).2 := by
  simp only [fanInLoop]
  cases workerSend (raceLost i) (urls.getD i "") <;> rfl

/-- Liveness of the deferred close: whenever a Done branch ends the loop
early or there are enough branches for every iteration, the loop returns
and `close(out)` runs exactly once. -/
theorem fanInLoop_closes (urls : List String) (raceLost : Nat → Bool)
    (br : List SelectBranch) (k : Nat)
    (h : SelectBranch.ctxDone ∈ br ∨ k ≤ br.length) :
    (fanInLoop urls raceLost br k).2 = 1 := by
  induction br generalizing k with
  | nil =>
    cases k with
    | zero => rfl
    | succ k =>
      rcases h with h | h
      · exact absurd h (List.not_mem_nil _)
      · exact absurd h (by simp)
  | cons b rest ih =>
    cases k with
    | zero => simp [fanInLoop]
    | succ k =>
      cases b with
      | ctxDone => simp [fanInLoop]
      | recv i =>
        rw [fanInLoop_close_cons_recv]
        apply ih
        rcases h with h | h
        · left
          rcases List.mem_cons.mp h with h | h
          · exact absurd h (by simp)
          · exact h
        · right
          simpa using Nat.le_of_succ_le_succ h

theorem consumedRecv_length_le (br : List SelectBranch) (k : Nat) :
    (consumedRecv br k).length ≤ k := by
  induction br generalizing k with
  | nil => cases k <;> simp [consumedRecv]
  | cons b rest ih =>
    cases k with
    | zero => simp [consumedRecv]
    | succ k =>
      cases b with
      | ctxDone => simp [consumedRecv]
      | recv i =>
        simp only [consumedRecv, List.length_cons]
        exact Nat.succ_le_succ (ih k)

/-- When no Done branch ends the loop early and there are enough branches
for every iteration, the loop consumes exactly `k` receives. -/
theorem consumedRecv_length (br : List SelectBranch) (k : Nat)
    (hdone : SelectBranch.ctxDone ∉ br) (hk : k ≤ br.length) :
    (consumedRecv br k).length = k := by
  induction br generalizing k with
  | nil =>
    cases k with
    | zero => rfl
    | succ k => exact absurd hk (by simp)
  | cons b rest ih =>
    cases k with
    | zero => cases b <;> rfl
    | succ k =>
      cases b with
      | ctxDone => exact absurd (List.mem_cons_self _ _) hdone
      | recv i =>
        simp only [consumedRecv, List.length_cons]
        rw [ih k (fun h => hdone (List.mem_cons_of_mem _ h))
          (Nat.le_of_succ_le_succ (by simpa using hk))]

/-- A duplicate-free list of `n` naturals all below `n` contains every
natural below `n`. -/
theorem mem_of_nodup_full (l : List Nat) (n : Nat) (hnd : l.Nodup)
    (hlen : l.length = n) (hlt : ∀ i ∈ l, i < n) : ∀ i < n, i ∈ l := by
  intro i hi
  have hsub : l.toFinset ⊆ Finset.range n := by
    intro j hj
    exact Finset.mem_range.mpr (hlt j (List.mem_toFinset.mp hj))
  have hcard : (Finset.range n).card ≤ l.toFinset.card := by
    rw [Finset.card_range, List.toFinset_card_of_nodup hnd, hlen]
  have heq := Finset.eq_of_subset_of_card_le hsub hcard
  exact List.mem_toFinset.mp (heq ▸ Finset.mem_range.mpr hi)

/- ------------------------------------------------------------------ -/
/- Claim theorems                                                     -/
/- ------------------------------------------------------------------ -/

/-- C1: counterexample.  The claim says every dispatched item produces
exactly one result even under cancellation, so the stream always emits
exactly N results.  In the code a worker whose fetch errors sends nothing,
and the fan-in's Done branch returns early: here a well-formed execution
of a 1-item dispatch emits 0 results. -/
theorem c1_counterexample :
    WellFormed 1 ⟨fun _ => true, [SelectBranch.ctxDone], true⟩ ∧
    (fanout_fetch ["a.com"] ⟨fun _ => true, [SelectBranch.ctxDone], true⟩).1 = [] :=
  ⟨⟨by decide, by decide, by decide, fun _ _ => rfl, fun _ => rfl, Or.inl (by decide)⟩,
    rfl⟩

/-- C1 (amended): when no cancellation occurs, every item produces exactly
one result: the stream emits exactly N results, closes once, and each of
the N items is received exactly once by the fan-in loop.  (There is no
concurrency parameter in the code: one goroutine is spawned per item.) -/
theorem c1_amended (urls : List String) (s : Schedule)
    (hwf : WellFormed urls.length s) (hnc : s.ctxCancelled = false) :
    (fanout_fetch urls s).1.length = urls.length ∧
    (fanout_fetch urls s).2 = 1 ∧
    ∀ i < urls.length, (consumedRecv s.branches urls.length).count i = 1 := by
  have hdone : SelectBranch.ctxDone ∉ s.branches := by
    intro h
    rw [hwf.done_needs_cancel h] at hnc
    cases hnc
  have hlen : urls.length ≤ s.branches.length := hwf.live.resolve_left hdone
  have hclen : (consumedRecv s.branches urls.length).length = urls.length :=
    consumedRecv_length s.branches urls.length hdone hlen
  have hmem : ∀ i < urls.length, i ∈ consumedRecv s.branches urls.length :=
    mem_of_nodup_full _ _ (consumedRecv_nodup s.branches urls.length hwf.nodup) hclen
      (fun i hi => hwf.recv_lt i (consumedRecv_subset s.branches urls.length i hi))
  refine ⟨?_, fanInLoop_closes urls s.raceLost s.branches urls.length hwf.live, ?_⟩
  · show (fanInLoop urls s.raceLost s.branches urls.length).1.length = urls.length
    rw [fanInLoop_emitted urls s.raceLost s.branches urls.length hwf.recv_sent,
      List.length_map, hclen]
  · intro i hi
    exact List.count_eq_one_of_mem
      (consumedRecv_nodup s.branches urls.length hwf.nodup) (hmem i hi)

/-- C1 (witness): a cancellation-free 2-item dispatch in which the workers
finish in reverse order emits exactly 2 results, closes once, and item 0
is received exactly once. -/
theorem c1_witness :
    (fanout_fetch ["a.com", "b.com"]
      ⟨fun _ => false, [SelectBranch.recv 1, SelectBranch.recv 0], false⟩).1.length = 2 ∧
    (fanout_fetch ["a.com", "b.com"]
      ⟨fun _ => false, [SelectBranch.recv 1, SelectBranch.recv 0], false⟩).2 = 1 ∧
    (consumedRecv [SelectBranch.recv 1, SelectBranch.recv 0] 2).count 0 = 1 := by
  have h := c1_amended ["a.com", "b.com"]
    ⟨fun _ => false, [SelectBranch.recv 1, SelectBranch.recv 0], false⟩
    ⟨by decide, by decide, by decide, fun _ h => Bool.noConfusion h,
      fun h => absurd h (by decide), Or.inr (by decide)⟩ rfl
  exact ⟨h.1, h.2.1, h.2.2 0 (by decide)⟩

/-- C2: counterexample.  The claim says that upon cancellation every
remaining item is delivered as a Cancelled result before the stream
closes.  In the code the fan-in's Done branch just returns: here a
well-formed cancelled execution of a 2-item dispatch closes the stream
having delivered nothing at all for either remaining item. -/
theorem c2_counterexample :
    WellFormed 2 ⟨fun _ => true, [SelectBranch.ctxDone], true⟩ ∧
    (fanout_fetch ["a.com", "b.com"] ⟨fun _ => true, [SelectBranch.ctxDone], true⟩).1 = [] ∧
    (fanout_fetch ["a.com", "b.com"] ⟨fun _ => true, [SelectBranch.ctxDone], true⟩).2 = 1 :=
  ⟨⟨by decide, by decide, by decide, fun _ _ => rfl, fun _ => rfl, Or.inl (by decide)⟩,
    rfl, rfl⟩

/-- C2 (amended): the stream is always finite and terminates — the
deferred close runs exactly once on every well-formed execution — but on
cancellation the remaining items are silently dropped: the stream holds at
most N results, and every value in it is the fetched data of an item whose
receive was consumed; no Cancelled placeholder is ever emitted. -/
theorem c2_amended (urls : List String) (s : Schedule)
    (hwf : WellFormed urls.length s) :
    (fanout_fetch urls s).2 = 1 ∧
    (fanout_fetch urls s).1.length ≤ urls.length ∧
    (fanout_fetch urls s).1 =
      (consumedRecv s.branches urls.length).map (fun i => "Data from " ++ urls.getD i "") := by
  have hem : (fanout_fetch urls s).1 =
      (consumedRecv s.branches urls.length).map (fun i => "Data from " ++ urls.getD i "") :=
    fanInLoop_emitted urls s.raceLost s.branches urls.length hwf.recv_sent
  refine ⟨fanInLoop_closes urls s.raceLost s.branches urls.length hwf.live, ?_, hem⟩
  rw [hem, List.length_map]
  exact consumedRecv_length_le s.branches urls.length

/-- C2 (witness): a cancellation-free 1-item dispatch closes once and
delivers exactly the fetched data of its single item. -/
theorem c2_witness :
    (fanout_fetch ["x.com"] ⟨fun _ => false, [SelectBranch.recv 0], false⟩).2 = 1 ∧
    (fanout_fetch ["x.com"] ⟨fun _ => false, [SelectBranch.recv 0], false⟩).1 =
      ["Data from x.com"] := by
  have h := c2_amended ["x.com"] ⟨fun _ => false, [SelectBranch.recv 0], false⟩
    ⟨by decide, by decide, by decide, fun _ h => Bool.noConfusion h,
      fun h => absurd h (by decide), Or.inr (by decide)⟩
  exact ⟨h.1, h.2.2.trans rfl⟩

/-- C3: counterexample.  The claim says a failing item is delivered as a
Failure(error) result in the output stream.  In the code the worker prints
the error and returns without sending anything: here item 0's fetch fails,
its worker sends nothing, and the stream contains only item 1's success —
no result of any kind for item 0. -/
theorem c3_counterexample :
    WellFormed 2 ⟨fun i => i == 0, [SelectBranch.recv 1, SelectBranch.ctxDone], true⟩ ∧
    (fun i => i == 0) 0 = true ∧
    workerSend true "a.com" = none ∧
    (fanout_fetch ["a.com", "b.com"]
      ⟨fun i => i == 0, [SelectBranch.recv 1, SelectBranch.ctxDone], true⟩).1 =
      ["Data from b.com"] :=
  ⟨⟨by decide, by decide, by decide, fun _ _ => rfl, fun _ => rfl, Or.inl (by decide)⟩,
    rfl, rfl, rfl⟩

/-- C3 (amended): a failing item never crashes the pool or blocks the
stream — the deferred close still runs exactly once — but its failure is
not delivered as a Failure result: the worker sends nothing and the fan-in
never consumes a receive for that item, so the item simply has no entry in
the output stream; other items are unaffected. -/
theorem c3_amended (urls : List String) (s : Schedule) (i : Nat)
    (hwf : WellFormed urls.length s) (hfail : s.raceLost i = true) :
    workerSend (s.raceLost i) (urls.getD i "") = none ∧
    i ∉ consumedRecv s.branches urls.length ∧
    (fanout_fetch urls s).2 = 1 := by
  refine ⟨by rw [hfail]; rfl, ?_,
    fanInLoop_closes urls s.raceLost s.branches urls.length hwf.live⟩
  intro hmem
  have := hwf.recv_sent i (consumedRecv_subset s.branches urls.length i hmem)
  rw [hfail] at this
  cases this

/-- C3 (witness): in a cancelled 1-item dispatch whose single fetch
failed, the worker sends nothing, the fan-in consumes no receive for the
item, and the stream still closes exactly once. -/
theorem c3_witness :
    workerSend true "c.com" = none ∧
    0 ∉ consumedRecv [SelectBranch.ctxDone] 1 ∧
    (fanout_fetch ["c.com"] ⟨fun _ => true, [SelectBranch.ctxDone], true⟩).2 = 1 := by
  have h := c3_amended ["c.com"] ⟨fun _ => true, [SelectBranch.ctxDone], true⟩ 0
    ⟨by decide, by decide, by decide, fun _ _ => rfl, fun _ => rfl, Or.inl (by decide)⟩
    rfl
  exact ⟨h.1, h.2.1, h.2.2⟩

/-- C4: on every well-formed execution — all items completing, or
cancellation ending the fan-in loop early — the deferred `close(out)` runs
exactly once: the stream's closed flag transitions false to true exactly
once and is never re-fired. -/
theorem c4_close_exactly_once (urls : List String) (s : Schedule)
    (hwf : WellFormed urls.length s) : (fanout_fetch urls s).2 = 1 :=
  fanInLoop_closes urls s.raceLost s.branches urls.length hwf.live

/-- C4 (witness): a 3-item dispatch that cancellation ends before any
result is received still closes the stream exactly once. -/
theorem c4_witness :
    (fanout_fetch ["a.com", "b.com", "c.com"]
      ⟨fun _ => true, [SelectBranch.ctxDone], true⟩).2 = 1 :=
  c4_close_exactly_once ["a.com", "b.com", "c.com"]
    ⟨fun _ => true, [SelectBranch.ctxDone], true⟩
    ⟨by decide, by decide, by decide, fun _ _ => rfl, fun _ => rfl, Or.inl (by decide)⟩

/-- C6: counterexample.  The claim says a result fully produced before
cancellation activation is still delivered.  Here worker 0's fetch
succeeded — its send is pending — cancellation is active, the fan-in's
select takes the Done branch, and the produced result is silently lost. -/
theorem c6_counterexample :
    WellFormed 1 ⟨fun _ => false, [SelectBranch.ctxDone], true⟩ ∧
    workerSend false "a.com" = some ("Data from " ++ "a.com") ∧
    (fanout_fetch ["a.com"] ⟨fun _ => false, [SelectBranch.ctxDone], true⟩).1 = [] :=
  ⟨⟨by decide, by decide, by decide, fun _ h => Bool.noConfusion h, fun _ => rfl,
    Or.inl (by decide)⟩, rfl, rfl⟩

/-- C6 (amended): when a pending result and the activated cancellation are
simultaneously ready, the select chooses nondeterministically — neither
side has precedence.  Both continuations are well-formed executions of the
same 1-item dispatch with the result produced and cancellation active: if
the Done branch is chosen first the produced result is dropped; if the
receive is chosen first it is delivered. -/
theorem c6_amended_nondeterministic :
    WellFormed 1 ⟨fun _ => false, [SelectBranch.ctxDone, SelectBranch.recv 0], true⟩ ∧
    WellFormed 1 ⟨fun _ => false, [SelectBranch.recv 0, SelectBranch.ctxDone], true⟩ ∧
    (fanout_fetch ["a.com"]
      ⟨fun _ => false, [SelectBranch.ctxDone, SelectBranch.recv 0], true⟩).1 = [] ∧
    (fanout_fetch ["a.com"]
      ⟨fun _ => false, [SelectBranch.recv 0, SelectBranch.ctxDone], true⟩).1 =
      ["Data from a.com"] :=
  ⟨⟨by decide, by decide, by decide, fun _ h => Bool.noConfusion h, fun _ => rfl,
    Or.inl (by decide)⟩,
    ⟨by decide, by decide, by decide, fun _ h => Bool.noConfusion h, fun _ => rfl,
      Or.inl (by decide)⟩,
    rfl, rfl⟩

/-- C7: at-most-once delivery.  On every well-formed execution the stream
never emits more than N results, and the fan-in loop consumes at most one
receive per item: each unbuffered send on `resultCh` is received at most
once and each worker sends at most once. -/
theorem c7_at_most_once (urls : List String) (s : Schedule)
    (hwf : WellFormed urls.length s) :
    (fanout_fetch urls s).1.length ≤ urls.length ∧
    ∀ i : Nat, (consumedRecv s.branches urls.length).count i ≤ 1 := by
  constructor
  · show (fanInLoop urls s.raceLost s.branches urls.length).1.length ≤ urls.length
    rw [fanInLoop_emitted urls s.raceLost s.branches urls.length hwf.recv_sent,
      List.length_map]
    exact consumedRecv_length_le s.branches urls.length
  · exact List.nodup_iff_count_le_one.mp
      (consumedRecv_nodup s.branches urls.length hwf.nodup)

/-- C7 (witness): a cancellation-free 2-item dispatch emits at most 2
results and receives item 0 at most once. -/
theorem c7_witness :
    (fanout_fetch ["a.com", "b.com"]
      ⟨fun _ => false, [SelectBranch.recv 0, SelectBranch.recv 1], false⟩).1.length ≤ 2 ∧
    (consumedRecv [SelectBranch.recv 0, SelectBranch.recv 1] 2).count 0 ≤ 1 := by
  have h := c7_at_most_once ["a.com", "b.com"]
    ⟨fun _ => false, [SelectBranch.recv 0, SelectBranch.recv 1], false⟩
    ⟨by decide, by decide, by decide, fun _ h => Bool.noConfusion h,
      fun h => absurd h (by decide), Or.inr (by decide)⟩
  exact ⟨h.1, h.2 0⟩

/-- C8: cancellation activation is idempotent.  Triggering cancellation a
second time (e.g. the deadline firing and then the deferred explicit
`cancel()` of `FanOutFanInWithContext`) leaves the context in the same
state as a single trigger, and a dispatch run against the twice-triggered
context has the same output stream, the same close count, and the same
set of well-formed executions as against the once-triggered one. -/
theorem c8_cancel_idempotent (c : CancelState) (urls : List String)
    (r : Nat → Bool) (br : List SelectBranch) :
    triggerCancel (triggerCancel c) = triggerCancel c ∧
    fanout_fetch urls ⟨r, br, doneObserved (triggerCancel (triggerCancel c))⟩ =
      fanout_fetch urls ⟨r, br, doneObserved (triggerCancel c)⟩ ∧
    (WellFormed urls.length ⟨r, br, doneObserved (triggerCancel (triggerCancel c))⟩ ↔
      WellFormed urls.length ⟨r, br, doneObserved (triggerCancel c)⟩) :=
  ⟨rfl, rfl, Iff.rfl⟩

/-- C9: counterexample.  The claim says cancellation terminates the
dispatch leak-free, every spawned worker goroutine eventually exiting.
Here the single worker's fetch succeeded, cancellation ended the fan-in
loop before its send was received, the stream closed — and the worker is
blocked on `resultCh <- data` forever: a goroutine leak. -/
theorem c9_counterexample :
    WellFormed 1 ⟨fun _ => false, [SelectBranch.ctxDone], true⟩ ∧
    (fanout_fetch ["b.com"] ⟨fun _ => false, [SelectBranch.ctxDone], true⟩).2 = 1 ∧
    ¬ workerExits ["b.com"] ⟨fun _ => false, [SelectBranch.ctxDone], true⟩ 0 :=
  ⟨⟨by decide, by decide, by decide, fun _ h => Bool.noConfusion h, fun _ => rfl,
    Or.inl (by decide)⟩, rfl,
    fun h => h.elim (fun h => Bool.noConfusion h) (fun h => absurd h (by decide))⟩

/-- C9 (amended): the out channel always closes exactly once, and when no
cancellation fires every spawned worker goroutine exits (each one's send
is consumed by the fan-in loop); under cancellation, a worker whose
completed result is never received remains blocked on `resultCh` forever. -/
theorem c9_amended (urls : List String) (s : Schedule)
    (hwf : WellFormed urls.length s) (hnc : s.ctxCancelled = false) :
    (∀ i < urls.length, workerExits urls s i) ∧ (fanout_fetch urls s).2 = 1 := by
  have hdone : SelectBranch.ctxDone ∉ s.branches := by
    intro h
    rw [hwf.done_needs_cancel h] at hnc
    cases hnc
  have hlen : urls.length ≤ s.branches.length := hwf.live.resolve_left hdone
  have hclen : (consumedRecv s.branches urls.length).length = urls.length :=
    consumedRecv_length s.branches urls.length hdone hlen
  refine ⟨fun i hi => Or.inr ?_,
    fanInLoop_closes urls s.raceLost s.branches urls.length hwf.live⟩
  exact mem_of_nodup_full _ _ (consumedRecv_nodup s.branches urls.length hwf.nodup)
    hclen
    (fun j hj => hwf.recv_lt j (consumedRecv_subset s.branches urls.length j hj))
    i hi

/-- C9 (witness): in a cancellation-free 1-item dispatch the single worker
exits and the stream closes once. -/
theorem c9_witness :
    workerExits ["a.com"] ⟨fun _ => false, [SelectBranch.recv 0], false⟩ 0 ∧
    (fanout_fetch ["a.com"] ⟨fun _ => false, [SelectBranch.recv 0], false⟩).2 = 1 := by
  have h := c9_amended ["a.com"] ⟨fun _ => false, [SelectBranch.recv 0], false⟩
    ⟨by decide, by decide, by decide, fun _ h => Bool.noConfusion h,
      fun h => absurd h (by decide), Or.inr (by decide)⟩ rfl
  exact ⟨h.1 0 (by decide), h.2⟩

/-- C10: the success payload for an item is exactly `"Data from "`
concatenated with its url, determined solely by the url: whenever
`fan_in_out_fetch` succeeds it returns that string, and on every
well-formed execution the output stream consists exactly of those strings
for the items whose receives were consumed, independent of timing or
worker identity. -/
theorem c10_success_payload :
    (∀ (flag : Bool) (url d : String),
        fan_in_out_fetch flag url = Except.ok d → d = "Data from " ++ url) ∧
    (∀ (urls : List String) (s : Schedule), WellFormed urls.length s →
        (fanout_fetch urls s).1 =
          (consumedRecv s.branches urls.length).map
            (fun i => "Data from " ++ urls.getD i "")) := by
  constructor
  · intro flag url d h
    cases flag
    · simp only [fan_in_out_fetch, Bool.false_eq_true, if_false, Except.ok.injEq] at h
      exact h.symm
    · simp [fan_in_out_fetch] at h
  · intro urls s hwf
    exact fanInLoop_emitted urls s.raceLost s.branches urls.length hwf.recv_sent

/-- C10 (witness): a successful fetch of `"a.com"` yields exactly
`"Data from a.com"`, and a cancellation-free 1-item dispatch of
`"b.com"` emits exactly the mapped payloads of its consumed items. -/
theorem c10_witness :
    ("Data from a.com" : String) = "Data from " ++ "a.com" ∧
    (fanout_fetch ["b.com"] ⟨fun _ => false, [SelectBranch.recv 0], false⟩).1 =
      (consumedRecv [SelectBranch.recv 0] 1).map
        (fun i => "Data from " ++ ["b.com"].getD i "") := by
  constructor
  · exact c10_success_payload.1 false "a.com" "Data from a.com" rfl
  · exact c10_success_payload.2 ["b.com"] ⟨fun _ => false, [SelectBranch.recv 0], false⟩
      ⟨by decide, by decide, by decide, fun _ h => Bool.noConfusion h,
        fun h => absurd h (by decide), Or.inr (by decide)⟩
